import Mathlib

/-!
Verification of the browsing-history and directory-filter core of the
frogmouth-style markdown/code viewer.

The definitions below are a shallow embedding of the Python source:

* `History` embeds the `History` class of
  `frogmouth/widgets/viewer.py` (a `deque` with `maxlen = 256` plus an
  integer cursor `_current`).
* `deleteHistory` embeds `Viewer.delete_history`, which performs
  `del self.history._history[history_id]` guarded by
  `try ... except IndexError: pass` (Python `del` on a deque accepts
  negative indices, counting from the end).
* `PathEntry`, `generalPred`, `markdownPred` and `filterPaths` embed
  `FilteredDirectoryTree.filter_paths` from
  `widgets/navigation_panes/local_files.py` (general mode, suffix set)
  and from `model_best/test2.py` (markdown-only mode).  A probe of
  `is_dir()` / `is_file()` may raise `PermissionError`, modelled by
  `Except Unit Bool`; Python short-circuit evaluation is embedded
  exactly, including the `and`/`or` precedence of the source text.
* `ViewerSt`, `visit` and `reload` embed the corresponding methods of
  the `Viewer` class; file reads are a `World` function returning
  `none` when the read raises.
-/

/-- A viewed location: a filesystem path or a remote URL
(`Path | URL` in the source). -/
inductive Location where
  | file (path : String)
  | url (address : String)
deriving DecidableEq, Repr

/-- The last `n` elements of a list, in order.  `deque(xs, maxlen := n)`
retains exactly these. -/
def takeRight (n : Nat) (l : List α) : List α :=
  l.drop (l.length - n)

/-- Embeds the `History` class state: `_history` (a deque of locations,
`maxlen` 256) and `_current` (the cursor). -/
structure History where
  entries : List Location
  cursor : Nat
deriving DecidableEq, Repr

/-- `History.MAXIMUM_HISTORY_LENGTH` in the source. -/
def MAXIMUM_HISTORY_LENGTH : Nat := 256

/-- Embeds `History.__init__`: the deque keeps the last 256 seed
entries, and `_current = max(len(self._history) - 1, 0)` (which is
`Nat` truncated subtraction). -/
def History.init (seed : List Location) : History :=
  let e := takeRight MAXIMUM_HISTORY_LENGTH seed
  { entries := e, cursor := e.length - 1 }

/-- Embeds the `History.location` property:
`self._history[self._current]` with `IndexError` mapped to `None`.
The cursor is never negative in the source, so plain positional
lookup is the exact semantics. -/
def History.location (h : History) : Option Location :=
  h.entries[h.cursor]?

/-- Embeds `History.remember`: `self._history.append(location)` (the
deque drops its oldest element when full) then
`self._current = len(self._history) - 1`. -/
def History.remember (h : History) (loc : Location) : History :=
  let e := takeRight MAXIMUM_HISTORY_LENGTH (h.entries ++ [loc])
  { entries := e, cursor := e.length - 1 }

/-- Embeds `History.back`: `if self._current:` decrement and return
`True`, else return `False`. -/
def History.back (h : History) : Bool × History :=
  if h.cursor ≠ 0 then (true, { h with cursor := h.cursor - 1 })
  else (false, h)

/-- Embeds `History.forward`: `if self._current < len(self._history) - 1:`
increment and return `True`, else return `False`.  For an empty history
Python compares against `-1` and `Nat` subtraction compares against `0`;
both comparisons are false for every cursor, so the embedding agrees. -/
def History.forward (h : History) : Bool × History :=
  if h.cursor < h.entries.length - 1 then (true, { h with cursor := h.cursor + 1 })
  else (false, h)

/-- Embeds `Viewer.delete_history`:
`del self.history._history[history_id]` inside
`try ... except IndexError: pass`.  Python `del` on a deque removes the
entry at `i` when `0 <= i < len`, removes the entry at `len + i` when
`-len <= i < 0`, and raises `IndexError` (here: caught, a no-op)
otherwise.  The cursor `_current` is not touched. -/
def History.deleteHistory (h : History) (i : Int) : History :=
  if 0 ≤ i ∧ i < (h.entries.length : Int) then
    { h with entries := h.entries.eraseIdx i.toNat }
  else if -(h.entries.length : Int) ≤ i ∧ i < 0 then
    { h with entries := h.entries.eraseIdx (i + h.entries.length).toNat }
  else h

/-- Embeds `Viewer.clear_history`, which is `load_history([])`,
i.e. `History([])`. -/
def History.clearHistory : History := History.init []

/-- Python `name.startswith(".")`: the first character is a dot. -/
def startsWithDot (s : String) : Bool :=
  s.toList.head? = some '.'

/-- Index of the last occurrence of a character, scanning a character
list with a running offset (CPython `str.rfind`). -/
def lastIdxFrom (c : Char) : List Char → Nat → Option Nat
  | [], _ => none
  | d :: ds, i =>
    match lastIdxFrom c ds (i + 1) with
    | some j => some j
    | none => if d = c then some i else none

/-- Embeds CPython `PurePath.suffix`: with `i = name.rfind('.')`, the
suffix is `name[i:]` when `0 < i < len(name) - 1`, else the empty
string (so `".git"` has no suffix while `".hidden.md"` has `".md"`). -/
def pySuffix (name : String) : String :=
  let cs := name.toList
  match lastIdxFrom '.' cs 0 with
  | none => ""
  | some i => if 0 < i ∧ i + 1 < cs.length then String.mk (cs.drop i) else ""

instance (α β : Type) [DecidableEq α] [DecidableEq β] :
    DecidableEq (Except α β) := fun x y =>
  match x, y with
  | .ok a, .ok b =>
    if h : a = b then isTrue (by rw [h])
    else isFalse (fun hc => h (by injection hc))
  | .ok _, .error _ => isFalse (fun hc => Except.noConfusion hc)
  | .error _, .ok _ => isFalse (fun hc => Except.noConfusion hc)
  | .error a, .error b =>
    if h : a = b then isTrue (by rw [h])
    else isFalse (fun hc => h (by injection hc))

/-- A filesystem entry as seen by `filter_paths`: its final name and the
results of the `is_dir()` / `is_file()` probes, each of which may raise
`PermissionError` (`Except.error ()`). -/
structure PathEntry where
  name : String
  isDirProbe : Except Unit Bool
  isFileProbe : Except Unit Bool
deriving DecidableEq, Repr

/-- `FilteredDirectoryTree.CODE_EXTENSIONS` from
`navigation_panes/local_files.py`. -/
def CODE_EXTENSIONS : List String :=
  [".py", ".cpp", ".c", ".h", ".hpp", ".java", ".js", ".ts",
   ".html", ".css", ".json", ".xml", ".yaml", ".yml", ".md", ".markdown",
   ".txt", ".sh", ".rb", ".go", ".rs", ".kt", ".swift"]

/-- Modelled from the spec: `maybe_markdown` is imported from the
absent `utility` module; the spec describes it as a suffix-based
heuristic classifying `.md`/`.markdown` files as markdown documents. -/
def maybeMarkdown (name : String) : Bool :=
  pySuffix name = ".md" ∨ pySuffix name = ".markdown"

/-- Embeds the per-entry condition of `filter_paths` in
`local_files.py` (general mode), with Python short-circuiting:
`not path.name.startswith(".") and (path.is_dir() or (path.is_file()
and path.suffix in self.CODE_EXTENSIONS))`.  A hidden entry is
rejected before any probe runs. -/
def generalPred (e : PathEntry) : Except Unit Bool :=
  if startsWithDot e.name then .ok false
  else do
    let d ← e.isDirProbe
    if d then return true
    else
      let f ← e.isFileProbe
      return (f && CODE_EXTENSIONS.contains (pySuffix e.name))

/-- Embeds the per-entry condition of `filter_paths` in
`model_best/test2.py` (markdown-only mode) with Python's `and`/`or`
precedence as written:
`(not path.name.startswith(".") and path.is_dir()) or
(path.is_file() and maybe_markdown(path))`.
For a hidden entry the first conjunct is false without probing
`is_dir()`, and evaluation falls through to the `is_file()` branch. -/
def markdownPred (e : PathEntry) : Except Unit Bool := do
  let first ← if startsWithDot e.name then pure false else e.isDirProbe
  if first then return true
  else
    let f ← e.isFileProbe
    return (f && maybeMarkdown e.name)

/-- The list comprehension inside the `try`: entries are tested left to
right and the first raised `PermissionError` aborts the whole
comprehension. -/
def filterExc (pred : PathEntry → Except Unit Bool) :
    List PathEntry → Except Unit (List PathEntry)
  | [] => .ok []
  | e :: rest => do
    let b ← pred e
    let tl ← filterExc pred rest
    return if b then e :: tl else tl

/-- Embeds `filter_paths`: the comprehension guarded by
`try ... except PermissionError: return []`. -/
def filterPaths (pred : PathEntry → Except Unit Bool)
    (paths : List PathEntry) : List PathEntry :=
  match filterExc pred paths with
  | .ok l => l
  | .error _ => []

/-- What the viewer widget is currently displaying. -/
inductive Display where
  | placeholder
  | markdownView (s : String)
  | codeSyntax (s : String)
  | codeText (s : String)
deriving DecidableEq, Repr

/-- The viewer state relevant to the claims: its `history` reactive,
the `viewing_location` flag, and the displayed content. -/
structure ViewerSt where
  history : History
  viewingLocation : Bool
  display : Display
deriving DecidableEq, Repr

/-- The outside world: reading a file and fetching a URL each yield the
content, or `none` when the operation raises / fails. -/
structure World where
  readFile : String → Option String
  fetch : String → Option String

/-- Embeds `Viewer.show_markdown` (history untouched). -/
def showMarkdown (v : ViewerSt) (s : String) : ViewerSt :=
  { v with viewingLocation := true, display := .markdownView s }

/-- Embeds `Viewer.show_syntax` (history untouched). -/
def showSyntax (v : ViewerSt) (s : String) : ViewerSt :=
  { v with viewingLocation := false, display := .codeSyntax s }

/-- Embeds `Viewer.show_text` (history untouched). -/
def showText (v : ViewerSt) (s : String) : ViewerSt :=
  { v with viewingLocation := false, display := .codeText s }

/-- Embeds `Viewer.visit_code_file`: read the file; on success show the
highlighted source, on any exception show an error text. -/
def visitCodeFile (v : ViewerSt) (w : World) (p : String) : ViewerSt :=
  match w.readFile p with
  | some c => showSyntax v c
  | none => showText v ("Error opening file: " ++ p)

/-- Embeds `Viewer.visit_markdown_file`: read the file; on success show
the markdown, on any exception show an error text. -/
def visitMarkdownFile (v : ViewerSt) (w : World) (p : String) : ViewerSt :=
  match w.readFile p with
  | some c => showMarkdown v c
  | none => showText v ("Error opening file: " ++ p)

/-- Modelled from the spec: `Viewer._remote_load` is absent from the
sources (only its call sites exist).  Per the spec it fetches the URL,
shows the markdown on success and reports a dialog-level error on
failure; the history bookkeeping is done by its caller `visit`, so it
does not itself modify the history. -/
def remoteLoad (v : ViewerSt) (w : World) (u : String)
    (_rememberFlag : Bool) : ViewerSt :=
  match w.fetch u with
  | some c => showMarkdown v c
  | none => v

/-- Embeds `Viewer.visit`.  The second component records an uncaught
exception (`location.read_text()` in the bare `.txt` branch is not
wrapped in a `try`); the returned state is the state at the point of
the raise.  Note that `remember` runs before any load is attempted. -/
def visit (v : ViewerSt) (w : World) (loc : Location)
    (rememberFlag : Bool) : ViewerSt × Option Unit :=
  let v := if rememberFlag then { v with history := v.history.remember loc } else v
  match loc with
  | .file p =>
    if pySuffix p = ".md" ∨ pySuffix p = ".markdown" then
      (visitMarkdownFile v w p, none)
    else if pySuffix p = ".txt" then
      match w.readFile p with
      | some c => (showText v c, none)
      | none => (v, some ())
    else
      (visitCodeFile v w p, none)
  | .url u => (remoteLoad v w u rememberFlag, none)

/-- Embeds the `Viewer.location` property:
`self.history.location if self.viewing_location else None`. -/
def viewerLocation (v : ViewerSt) : Option Location :=
  if v.viewingLocation then v.history.location else none

/-- Embeds `Viewer.reload`: `if self.location is not None:
self.visit(self.location, False)`. -/
def reload (v : ViewerSt) (w : World) : ViewerSt × Option Unit :=
  match viewerLocation v with
  | some loc => visit v w loc false
  | none => (v, none)

/-- A world in which every file read and every fetch fails. -/
def emptyWorld : World := ⟨fun _ => none, fun _ => none⟩

/-!  ## Supporting lemmas  -/

theorem takeRight_length (n : Nat) (l : List α) :
    (takeRight n l).length = min n l.length := by
  simp [takeRight]
  omega

set_option maxRecDepth 4000 in
theorem remember_entries_eq (h : History) (x : Location) :
    (h.remember x).entries = takeRight 256 (h.entries ++ [x]) := rfl

set_option maxRecDepth 4000 in
theorem remember_cursor_eq (h : History) (x : Location) :
    (h.remember x).cursor = (h.remember x).entries.length - 1 := rfl

theorem takeRight_concat (E : List α) (x : α) (n : Nat) (hn : 1 ≤ n) :
    takeRight n (E ++ [x]) = E.drop (E.length + 1 - n) ++ [x] := by
  have h1 : (E ++ [x]).length - n = E.length + 1 - n := by
    simp [List.length_append]
  have h2 : E.length + 1 - n - E.length = 0 := by omega
  unfold takeRight
  rw [h1, List.drop_append_eq_append_drop, h2]
  rfl

theorem remember_entries_concat (h : History) (x : Location) :
    (h.remember x).entries =
      h.entries.drop (h.entries.length + 1 - 256) ++ [x] := by
  rw [remember_entries_eq]
  exact takeRight_concat _ _ _ (by omega)

/-!  ## Claim theorems  -/

/-- C6: after `remember(X)` the current location is `X` regardless of
the prior cursor position, and a subsequent `forward()` fails and
leaves the history unchanged (there is no entry beyond the new tip). -/
theorem remember_jumps_to_tip (h : History) (x : Location) :
    (h.remember x).location = some x ∧
    (h.remember x).forward = (false, h.remember x) := by
  have he := remember_entries_concat h x
  constructor
  · show (h.remember x).entries[(h.remember x).cursor]? = some x
    rw [remember_cursor_eq, he]
    have hl : (h.entries.drop (h.entries.length + 1 - 256) ++ [x]).length - 1 =
        (h.entries.drop (h.entries.length + 1 - 256)).length := by
      simp [List.length_append]
    rw [hl]
    exact List.getElem?_concat_length _ _
  · unfold History.forward
    rw [remember_cursor_eq, if_neg (lt_irrefl _)]

/-- C7: `back()` at cursor 0 returns failure and leaves the state
unchanged; `forward()` with the cursor at the newest entry returns
failure and leaves the state unchanged; neither wraps around. -/
theorem back_forward_fail_at_boundary (h : History) :
    (h.cursor = 0 → h.back = (false, h)) ∧
    (h.cursor = h.entries.length - 1 → h.forward = (false, h)) := by
  constructor
  · intro h0
    unfold History.back
    rw [if_neg]
    simp [h0]
  · intro hN
    unfold History.forward
    rw [hN, if_neg (lt_irrefl _)]

/-- C7 witness: both boundary failures at the singleton history. -/
theorem back_forward_fail_at_boundary_witness :
    (History.init [Location.file "a"]).back =
        (false, History.init [Location.file "a"]) ∧
    (History.init [Location.file "a"]).forward =
        (false, History.init [Location.file "a"]) :=
  ⟨(back_forward_fail_at_boundary _).1 (by decide),
   (back_forward_fail_at_boundary _).2 (by decide)⟩

/-- C1: evaluation of `Viewer.delete_history` at a failing input.  With
history `[a, b]` and cursor 1, deleting index 0 (an entry at or before
the cursor) leaves the cursor equal to the new length, so the bounds
invariant is broken and `location` is `None` although the history is
non-empty. -/
theorem delete_leaves_stale_cursor :
    ((History.init [Location.file "a", Location.file "b"]).deleteHistory 0).entries ≠ [] ∧
    ¬ (((History.init [Location.file "a", Location.file "b"]).deleteHistory 0).cursor <
        ((History.init [Location.file "a", Location.file "b"]).deleteHistory 0).entries.length) ∧
    ((History.init [Location.file "a", Location.file "b"]).deleteHistory 0).location = none := by
  decide

/-- C2 counterexample: with history `[a, b]` and cursor 0 (reached by a
single `back()` from construction), `back()` fails without moving but
`forward()` then succeeds, so the pair of calls moves the current
location from `a` to `b` instead of restoring it. -/
theorem back_forward_not_inverse_at_zero :
    (((History.init [Location.file "a", Location.file "b"]).back).2.cursor = 0) ∧
    (((((History.init [Location.file "a", Location.file "b"]).back).2.back).2.forward).2.location ≠
      ((History.init [Location.file "a", Location.file "b"]).back).2.location) := by
  decide

/-- C2 (amended): when the cursor is positive and in bounds — i.e. when
`back()` actually succeeds — `back()` then `forward()` restores the
current location. -/
theorem back_forward_restores (h : History) (h1 : 0 < h.cursor)
    (h2 : h.cursor < h.entries.length) :
    ((h.back.2).forward).2.location = h.location := by
  have hb : h.back = (true, { h with cursor := h.cursor - 1 }) := by
    unfold History.back
    rw [if_pos (by omega)]
  have hf : ({ h with cursor := h.cursor - 1 } : History).forward =
      (true, { h with cursor := h.cursor - 1 + 1 }) := by
    unfold History.forward
    rw [if_pos]
    show h.cursor - 1 < h.entries.length - 1
    omega
  rw [hb]
  show ((({ h with cursor := h.cursor - 1 } : History)).forward).2.location = h.location
  rw [hf]
  show ({ h with cursor := h.cursor - 1 + 1 } : History).location = h.location
  have : h.cursor - 1 + 1 = h.cursor := by omega
  rw [this]

/-- C2 witness: the amended restoration at history `[a, b]`, cursor 1. -/
theorem back_forward_restores_witness :
    (((History.init [Location.file "a", Location.file "b"]).back.2).forward).2.location =
      (History.init [Location.file "a", Location.file "b"]).location :=
  back_forward_restores _ (by decide) (by decide)

/-- C8 counterexample: `-1` lies outside `0 <= index < len`, yet
`delete(-1)` on the history `[a, b, c]` is not a no-op — Python `del`
on a deque accepts negative indices and removes the last entry. -/
theorem delete_negative_index_not_noop :
    ¬ (0 ≤ (-1 : Int) ∧ (-1 : Int) <
        ((History.init [Location.file "a", Location.file "b", Location.file "c"]).entries.length : Int)) ∧
    (History.init [Location.file "a", Location.file "b", Location.file "c"]).deleteHistory (-1) ≠
      History.init [Location.file "a", Location.file "b", Location.file "c"] := by
  decide

/-- C8 (amended): `delete(index)` removes the entry at `index` when
`0 <= index < len`, removes the entry at `len + index` when
`-len <= index < 0` (Python negative indexing), and is a no-op for
every index outside `[-len, len)`; it never raises and never moves the
cursor. -/
theorem delete_index_ranges (h : History) (i : Int) :
    (h.deleteHistory i).cursor = h.cursor ∧
    (0 ≤ i ∧ i < (h.entries.length : Int) →
      (h.deleteHistory i).entries = h.entries.eraseIdx i.toNat) ∧
    (-(h.entries.length : Int) ≤ i ∧ i < 0 →
      (h.deleteHistory i).entries = h.entries.eraseIdx (i + h.entries.length).toNat) ∧
    ((i < -(h.entries.length : Int) ∨ (h.entries.length : Int) ≤ i) →
      h.deleteHistory i = h) := by
  unfold History.deleteHistory
  refine ⟨?_, ?_, ?_, ?_⟩
  · split
    · rfl
    · split
      · rfl
      · rfl
  · intro hi
    rw [if_pos hi]
  · intro hi
    rw [if_neg (by omega), if_pos hi]
  · intro hi
    rw [if_neg (by omega), if_neg (by omega)]

/-- C8 witness: `delete(5)` on the length-3 history `[a, b, c]` is a
no-op, and `delete(1)` removes exactly the entry at index 1 while the
cursor stays put. -/
theorem delete_index_ranges_witness :
    (History.init [Location.file "a", Location.file "b", Location.file "c"]).deleteHistory 5 =
        History.init [Location.file "a", Location.file "b", Location.file "c"] ∧
    ((History.init [Location.file "a", Location.file "b", Location.file "c"]).deleteHistory 1).entries =
        (History.init [Location.file "a", Location.file "b", Location.file "c"]).entries.eraseIdx
          (1 : Int).toNat :=
  ⟨(delete_index_ranges _ 5).2.2.2 (by decide),
   (delete_index_ranges _ 1).2.1 (by decide)⟩

/-- C4: evaluation of the two filter predicates at the failing input.
A regular file named `.hidden.md` is dot-prefixed, yet the
markdown-only `filter_paths` of `model_best/test2.py` includes it (the
`and` binds tighter than the `or`, so the hidden check only guards the
directory branch), while the general-mode `filter_paths` of
`local_files.py` excludes it; a `.git` directory is excluded in both
modes. -/
theorem hidden_markdown_file_included_in_markdown_mode :
    startsWithDot ".hidden.md" = true ∧
    filterPaths markdownPred [⟨".hidden.md", .ok false, .ok true⟩] =
      [⟨".hidden.md", .ok false, .ok true⟩] ∧
    filterPaths generalPred [⟨".hidden.md", .ok false, .ok true⟩] = [] ∧
    filterPaths markdownPred [⟨".git", .ok true, .ok false⟩] = [] ∧
    filterPaths generalPred [⟨".git", .ok true, .ok false⟩] = [] := by
  decide

theorem filterExc_error_of_mem (pred : PathEntry → Except Unit Bool)
    (paths : List PathEntry) (e : PathEntry) (he : e ∈ paths)
    (herr : pred e = .error ()) : filterExc pred paths = .error () := by
  induction paths with
  | nil => cases he
  | cons a rest ih =>
    cases he with
    | head =>
      simp only [filterExc, herr]
      rfl
    | tail _ hmem =>
      cases hp : pred a with
      | error u =>
        cases u
        simp only [filterExc, hp]
        rfl
      | ok b =>
        simp only [filterExc, hp, ih hmem]
        rfl

/-- C9: if probing any entry of a listing raises `PermissionError`, the
whole `filter_paths` call degrades to the empty listing instead of
propagating the failure, in general mode and in markdown-only mode
alike (the predicate itself is total, so the tree render is never
aborted). -/
theorem permission_error_yields_empty_listing
    (paths : List PathEntry) (e : PathEntry) (he : e ∈ paths) :
    (generalPred e = .error () → filterPaths generalPred paths = []) ∧
    (markdownPred e = .error () → filterPaths markdownPred paths = []) := by
  constructor <;> intro herr <;> unfold filterPaths <;>
    rw [filterExc_error_of_mem _ _ _ he herr]

/-- C9 witness: a non-hidden entry whose `is_dir()` probe raises makes
both filters return the empty listing. -/
theorem permission_error_yields_empty_listing_witness :
    filterPaths generalPred [⟨"data", .error (), .error ()⟩] = [] ∧
    filterPaths markdownPred [⟨"data", .error (), .error ()⟩] = [] :=
  ⟨(permission_error_yields_empty_listing _ ⟨"data", .error (), .error ()⟩
      (by decide)).1 (by decide),
   (permission_error_yields_empty_listing _ ⟨"data", .error (), .error ()⟩
      (by decide)).2 (by decide)⟩

/-- C3 counterexample: visiting an unreadable file `b.md` in a world
where every read fails shows an error in the viewer, yet the history
has changed — `visit` calls `remember` before attempting the load, so
the failed visit is remembered. -/
theorem failed_visit_is_remembered_cex :
    emptyWorld.readFile "b.md" = none ∧
    (visit ⟨History.init [Location.file "a.md"], true, .placeholder⟩ emptyWorld
        (Location.file "b.md") true).1.display =
      Display.codeText ("Error opening file: " ++ "b.md") ∧
    (visit ⟨History.init [Location.file "a.md"], true, .placeholder⟩ emptyWorld
        (Location.file "b.md") true).1.history ≠
      History.init [Location.file "a.md"] := by
  decide

/-- C3 (amended): a visit whose load fails is remembered rather than
discarded: `remember` runs before any load is attempted, so after a
failed visit — an unreadable file, or a remote URL whose fetch fails —
the history is exactly the pre-visit history with the failed location
remembered (appended, cursor on it), not the unchanged pre-visit
state. -/
theorem failed_visit_history (v : ViewerSt) (w : World) :
    (∀ p : String, w.readFile p = none →
      (visit v w (Location.file p) true).1.history =
        v.history.remember (Location.file p)) ∧
    (∀ u : String, w.fetch u = none →
      (visit v w (Location.url u) true).1.history =
        v.history.remember (Location.url u)) := by
  constructor
  · intro p hfail
    by_cases h1 : pySuffix p = ".md" ∨ pySuffix p = ".markdown"
    · simp [visit, h1, visitMarkdownFile, hfail, showText]
    · by_cases h2 : pySuffix p = ".txt"
      · simp [visit, h1, h2, hfail]
      · simp [visit, h1, h2, visitCodeFile, hfail, showText]
  · intro u hfail
    simp [visit, remoteLoad, hfail]

/-- C3 witness: the amended statement at a concrete failing file visit
and a concrete failing remote visit. -/
theorem failed_visit_history_witness :
    (visit ⟨History.init [], false, .placeholder⟩ emptyWorld
        (Location.file "x.md") true).1.history =
      (History.init []).remember (Location.file "x.md") ∧
    (visit ⟨History.init [], false, .placeholder⟩ emptyWorld
        (Location.url "http://example.invalid") true).1.history =
      (History.init []).remember (Location.url "http://example.invalid") :=
  ⟨(failed_visit_history _ _).1 "x.md" rfl,
   (failed_visit_history _ _).2 "http://example.invalid" rfl⟩

theorem visit_no_remember_history (v : ViewerSt) (w : World)
    (loc : Location) : (visit v w loc false).1.history = v.history := by
  cases loc with
  | file p =>
    by_cases h1 : pySuffix p = ".md" ∨ pySuffix p = ".markdown"
    · cases hr : w.readFile p <;>
        simp [visit, h1, visitMarkdownFile, hr, showMarkdown, showText]
    · by_cases h2 : pySuffix p = ".txt"
      · cases hr : w.readFile p <;> simp [visit, h1, h2, hr, showText]
      · cases hr : w.readFile p <;>
          simp [visit, h1, h2, visitCodeFile, hr, showSyntax, showText]
  | url u =>
    cases hf : w.fetch u <;> simp [visit, remoteLoad, hf, showMarkdown]

/-- C10: `reload()` never modifies the history — it re-visits the
current location without remembering it, and when there is no current
location it does nothing at all. -/
theorem reload_preserves_history (v : ViewerSt) (w : World) :
    (reload v w).1.history = v.history ∧
    (viewerLocation v = none → reload v w = (v, none)) := by
  constructor
  · unfold reload
    cases hl : viewerLocation v with
    | none => rfl
    | some loc => exact visit_no_remember_history v w loc
  · intro hnone
    unfold reload
    rw [hnone]

/-- C10 witness: reload at a viewer that is not viewing a location. -/
theorem reload_preserves_history_witness :
    (reload ⟨History.init [], false, .placeholder⟩ emptyWorld).1.history =
        History.init [] ∧
    reload ⟨History.init [], false, .placeholder⟩ emptyWorld =
        (⟨History.init [], false, .placeholder⟩, none) :=
  ⟨(reload_preserves_history _ _).1, (reload_preserves_history _ _).2 rfl⟩

theorem takeRight_idem_append (n : Nat) (A L : List α) :
    takeRight n (takeRight n A ++ L) = takeRight n (A ++ L) := by
  unfold takeRight
  simp only [List.length_append, List.length_drop]
  rw [List.drop_append_eq_append_drop, List.drop_append_eq_append_drop,
      List.drop_drop, List.length_drop]
  have e1 : A.length - n + (A.length - (A.length - n) + L.length - n) =
      A.length + L.length - n := by omega
  have e2 : A.length - (A.length - n) + L.length - n - (A.length - (A.length - n)) =
      A.length + L.length - n - A.length := by omega
  rw [e1, e2]

set_option maxRecDepth 8000 in
theorem foldl_remember_entries (L : List Location) (h : History)
    (hle : h.entries.length ≤ 256) :
    (L.foldl History.remember h).entries = takeRight 256 (h.entries ++ L) := by
  induction L generalizing h with
  | nil =>
    simp [takeRight, Nat.sub_eq_zero_of_le hle]
  | cons x L ih =>
    have hlen : (h.remember x).entries.length ≤ 256 := by
      rw [remember_entries_eq, takeRight_length]
      exact Nat.min_le_left _ _
    calc (List.foldl History.remember h (x :: L)).entries
        = (List.foldl History.remember (h.remember x) L).entries := rfl
      _ = takeRight 256 ((h.remember x).entries ++ L) := ih _ hlen
      _ = takeRight 256 (takeRight 256 (h.entries ++ [x]) ++ L) := by
          rw [remember_entries_eq]
      _ = takeRight 256 ((h.entries ++ [x]) ++ L) := takeRight_idem_append _ _ _
      _ = takeRight 256 (h.entries ++ (x :: L)) := by
          rw [List.append_assoc, List.singleton_append]

set_option maxRecDepth 8000 in
/-- C5: starting from any history within capacity, a sequence of at
least 256 `remember` calls leaves exactly 256 entries, namely the 256
most recently remembered locations in visit order; moreover a
`remember` performed at capacity evicts exactly the single oldest
entry. -/
theorem remember_capacity (h : History) (L : List Location)
    (hh : h.entries.length ≤ 256) (hL : 256 ≤ L.length) :
    ((L.foldl History.remember h).entries = L.drop (L.length - 256) ∧
     (L.foldl History.remember h).entries.length = 256) ∧
    (∀ (h' : History) (x : Location), h'.entries.length = 256 →
      (h'.remember x).entries = h'.entries.tail ++ [x]) := by
  constructor
  · have he := foldl_remember_entries L h hh
    have key : takeRight 256 (h.entries ++ L) = L.drop (L.length - 256) := by
      unfold takeRight
      rw [List.length_append, List.drop_append_eq_append_drop,
          List.drop_eq_nil_of_le (by omega : h.entries.length ≤ h.entries.length + L.length - 256),
          List.nil_append]
      congr 1
      omega
    refine ⟨by rw [he, key], ?_⟩
    rw [he, key, List.length_drop]
    omega
  · intro h' x h256
    rw [remember_entries_eq]
    unfold takeRight
    have e1 : (h'.entries ++ [x]).length - 256 = 1 := by
      simp [List.length_append, h256]
    rw [e1, List.drop_append_eq_append_drop]
    have e2 : 1 - h'.entries.length = 0 := by omega
    rw [e2, List.drop_one]
    rfl

set_option maxRecDepth 8000 in
/-- C5 witness: remembering 256 locations into an empty history fills
it to exactly capacity with those locations, and one further
`remember` at capacity drops just the oldest entry. -/
theorem remember_capacity_witness :
    (((List.replicate 256 (Location.file "a")).foldl History.remember
        (History.init [])).entries =
      (List.replicate 256 (Location.file "a")).drop
        ((List.replicate 256 (Location.file "a")).length - 256) ∧
     ((List.replicate 256 (Location.file "a")).foldl History.remember
        (History.init [])).entries.length = 256) ∧
    ((History.mk (List.replicate 256 (Location.file "b")) 255).remember
        (Location.file "c")).entries =
      (List.replicate 256 (Location.file "b")).tail ++ [Location.file "c"] :=
  ⟨(remember_capacity (History.init []) (List.replicate 256 (Location.file "a"))
      (by decide) (by simp)).1,
   (remember_capacity (History.init []) (List.replicate 256 (Location.file "a"))
      (by decide) (by simp)).2
     (History.mk (List.replicate 256 (Location.file "b")) 255)
     (Location.file "c") (by simp)⟩
